import Mathlib

/-!
Shallow embedding of the kbc_p3dh ingestion pipeline.

The embedded functions are translated from the repository's Python sources:
`ingest_p3dh.py` (multi-entity ingestion), `ingest.py` together with
`src/kbc_p3dh/mapping.py` and `src/kbc_p3dh/loader.py` (single-entity
pipeline).  Spreadsheet cells are modelled as `Option String` (`none` for an
empty cell, `some s` for a cell whose Python `str()` rendering is `s`).
Python's binary floats are modelled as exact decimal numbers
(mantissa × 10^exp); string stripping and substring tests are re-implemented
structurally over `List Char` so that every definition evaluates inside the
kernel.  File-system access (globbing, workbook handles, SQLite) is abstracted
to explicit lists passed as arguments; the row logic itself is kept verbatim.
-/

namespace P3dh

/-- A spreadsheet or CSV cell: `none` models Python `None` / a missing cell,
`some s` a cell holding the string `s` (the `str()` rendering of its value). -/
abbrev Cell := Option String

/-- Drop leading whitespace characters from a character list. -/
def dropWs : List Char → List Char
  | [] => []
  | c :: cs => if c.isWhitespace then dropWs cs else c :: cs

/-- Structural model of Python `str.strip()`: remove whitespace from both
ends.  (Only ASCII-style whitespace is modelled.) -/
def pyStrip (s : String) : String :=
  String.mk (dropWs ((dropWs s.data.reverse).reverse))

/-- Python truthiness of a cell: `None` and the empty string are falsy. -/
def truthy : Cell → Bool
  | none => false
  | some s => !s.isEmpty

/-- Models `str(x).strip() if x else ""` applied to a cell. -/
def cellStr : Cell → String
  | none => ""
  | some s => pyStrip s

/-- Models `row[ci]` guarded by `ci < len(row)` followed by
`str(...).strip() if ... else ""`, as done throughout the sheet parsers. -/
def cellAt (row : List Cell) (ci : Nat) : String :=
  cellStr (row.getD ci none)

/-- Models Python `pat in s` (substring containment), structurally. -/
def hasSubList (pat : List Char) : List Char → Bool
  | [] => pat.isEmpty
  | c :: cs => pat.isPrefixOf (c :: cs) || hasSubList pat cs

/-- Substring test on strings, models Python's `in` operator. -/
def containsSub (s pat : String) : Bool := hasSubList pat.data s.data

/-- Models Python `s.startswith(pat)`. -/
def strStarts (s pat : String) : Bool := pat.data.isPrefixOf s.data

/-- Leading decimal digits of a character list, models the regex `^(\d+)`
(`_DP_RE`) in `ingest_p3dh.py` and `mapping.py`. -/
def leadingDigits : List Char → List Char
  | [] => []
  | c :: cs => if c.isDigit then c :: leadingDigits cs else []

/-- Whether a string begins with a decimal digit (the condition under which
`_DP_RE.match` succeeds). -/
def beginsWithDigit (s : String) : Bool :=
  match s.data with
  | [] => false
  | c :: _ => c.isDigit

/-- The unit-marker table of `ingest_p3dh.py` / `mapping.py`, in insertion
order (which fixes the lookup precedence of Python's dict iteration). -/
def UNIT_MAP : List (String × String) :=
  [("€£$", "monetary"), ("%", "percentage"), ("#", "count"),
   ("yyyy-mm-dd", "date")]

/-- Embedding of `_parse_dp_cell`: extract `(dp_id, unit)` from a datapoint
cell.  `None` and text not starting with digits yield `(none, "")`; otherwise
the id is `"dp"` + leading digits and the unit is the first `UNIT_MAP` marker
contained in the text (empty string when none matches). -/
def parse_dp_cell (val : Cell) : Option String × String :=
  match val with
  | none => (none, "")
  | some v =>
    let text := pyStrip v
    let ds := leadingDigits text.data
    if ds.isEmpty then (none, "")
    else
      (some ("dp" ++ String.mk ds),
       ((UNIT_MAP.find? fun p => containsSub text p.1).map Prod.snd).getD "")

/-- One step of the TOC loop in `_parse_toc` / `parse_toc`: a row contributes
`{str(code).strip(): str(title).strip()}` when both `row[1]` and `row[2]` are
truthy; dict assignment overwrites any earlier entry for the same code. -/
def tocStep (toc : String → Option String) (row : List Cell) :
    String → Option String := fun k =>
  if truthy (row.getD 1 none) && truthy (row.getD 2 none) then
    if k = cellStr (row.getD 1 none) then some (cellStr (row.getD 2 none))
    else toc k
  else toc k

/-- Embedding of `_parse_toc` / `parse_toc`: fold the TOC rows into a
code ↦ title map (a Python dict, modelled as a lookup function). -/
def parse_toc (rows : List (List Cell)) : String → Option String :=
  rows.foldl tocStep (fun _ => none)

/-- One datapoint-definition record, the row shape produced by
`_parse_mapping_sheet` in `ingest_p3dh.py` (the `mapping.py` records carry a
subset of these fields). -/
structure MappingRec where
  datapoint : String
  template : String
  template_title : String
  row_label : String
  row_code : String
  col_code : String
  col_label : String
  col_parent : String
  col_header : String
  col_group : String
  col_sub : String
  unit : String
deriving DecidableEq

/-- The deduplication key of `build_mapping`: `(r["datapoint"], r["template"])`. -/
def dKey (r : MappingRec) : String × String := (r.datapoint, r.template)

/-- The `seen`-set loop of `build_mapping` in `ingest_p3dh.py` (equivalently,
pandas `drop_duplicates(subset=["datapoint", "template"])` in `mapping.py`,
whose default is also keep-first). -/
def dedupeAux : List (String × String) → List MappingRec → List MappingRec
  | _, [] => []
  | seen, r :: rs =>
    if dKey r ∈ seen then dedupeAux seen rs
    else r :: dedupeAux (dKey r :: seen) rs

/-- Embedding of the deduplication performed by `build_mapping` on the
concatenated per-sheet record lists (the workbook traversal itself is
abstracted to the already-parsed `all_records` argument). -/
def build_mapping (all_records : List MappingRec) : List MappingRec :=
  dedupeAux [] all_records

/-- One step of the `dp_lookup.setdefault(rec["datapoint"], rec)` loop in
`ingest_folder`: insert the record only if its datapoint is not yet bound. -/
def dpInsert (m : List (String × MappingRec)) (r : MappingRec) :
    List (String × MappingRec) :=
  if (m.find? fun p => p.1 == r.datapoint).isSome then m
  else m ++ [(r.datapoint, r)]

/-- The `dp_lookup` dict of `ingest_folder`, built with `setdefault` over the
mapping records (modelled as an association list with unique keys). -/
def buildDpLookup (records : List MappingRec) : List (String × MappingRec) :=
  records.foldl dpInsert []

/-- Dict lookup `dp_lookup.get(dp)`. -/
def lookupDp (m : List (String × MappingRec)) (dp : String) :
    Option MappingRec :=
  (m.find? fun p => p.1 == dp).map Prod.snd

/-- One row of a `k_*.csv` fact file: the `datapoint` and `factValue` columns. -/
structure CsvRow where
  datapoint : String
  factValue : String
deriving DecidableEq

/-- One raw fact as produced by the fact readers: `(datapoint, factValue,
file stem)`. -/
structure RawFact where
  datapoint : String
  factValue : String
  file : String
deriving DecidableEq

/-- Embedding of `_load_csv_data` in `ingest_p3dh.py`: flatten all `k_*.csv`
files (given as `(stem, rows)` pairs, already sorted by the glob) into raw
facts tagged with their file stem.  Note: an empty file list yields an empty
fact list, no error is raised. -/
def load_csv_data (files : List (String × List CsvRow)) : List RawFact :=
  files.flatMap fun sf => sf.2.map fun r =>
    { datapoint := r.datapoint, factValue := r.factValue, file := sf.1 }

/-- Embedding of `load_raw_data` in `loader.py`: build one frame per file,
tag it with the file stem, and raise `FileNotFoundError` when no file was
found (modelled as `Except.error`); the frames are then concatenated. -/
def load_raw_data (files : List (String × List CsvRow)) :
    Except String (List RawFact) :=
  let frames := files.map fun sf => sf.2.map fun r =>
    RawFact.mk r.datapoint r.factValue sf.1
  if frames.isEmpty then Except.error "No k csv files found"
  else Except.ok frames.flatten

/-- Exact decimal model of a parsed Python float: the represented value is
`mantissa · 10 ^ exp10`.  (The binary rounding of IEEE doubles is idealised
away; all claims here are structural, not about rounding.) -/
structure PyNum where
  mantissa : Int
  exp10 : Int
deriving DecidableEq

/-- Numeric value of a digit list (most significant first). -/
def digitsVal (ds : List Char) : Nat :=
  ds.foldl (fun n c => 10 * n + (c.toNat - 48)) 0

/-- Parse the unsigned mantissa of a float literal: digits with an optional
fractional part (`123`, `123.`, `123.45`, `.45`).  Returns the decimal value
and the unconsumed rest. -/
def parseMantissa (cs : List Char) : Option (Int × Int × List Char) :=
  let ip := cs.takeWhile Char.isDigit
  let rest := cs.dropWhile Char.isDigit
  match rest with
  | '.' :: rest2 =>
    let fp := rest2.takeWhile Char.isDigit
    let rest3 := rest2.dropWhile Char.isDigit
    if ip.isEmpty && fp.isEmpty then none
    else some ((digitsVal ip * 10 ^ fp.length + digitsVal fp : Nat),
               -(fp.length : Int), rest3)
  | _ => if ip.isEmpty then none else some ((digitsVal ip : Nat), 0, rest)

/-- Parse the digits of an exponent (must be non-empty and all digits). -/
def parseExpDigits (cs : List Char) : Option Nat :=
  if !cs.isEmpty && cs.all Char.isDigit then some (digitsVal cs) else none

/-- Parse an exponent body (after `e`/`E`): optional sign then digits. -/
def parseExpPart : List Char → Option Int
  | '+' :: cs => (parseExpDigits cs).map Int.ofNat
  | '-' :: cs => (parseExpDigits cs).map fun n => -(n : Int)
  | cs => (parseExpDigits cs).map Int.ofNat

/-- Parse an unsigned float literal: mantissa with optional `e`/`E` exponent;
the whole input must be consumed. -/
def pyFloatCore (cs : List Char) : Option PyNum :=
  match parseMantissa cs with
  | none => none
  | some (m, e, rest) =>
    match rest with
    | [] => some ⟨m, e⟩
    | 'e' :: es => (parseExpPart es).map fun ex => ⟨m, e + ex⟩
    | 'E' :: es => (parseExpPart es).map fun ex => ⟨m, e + ex⟩
    | _ => none

/-- Model of Python `float(s)` on finite decimal literals, used by the
`try: float(raw_val) except: None` coercion in `ingest_folder` and by
`pd.to_numeric(..., errors="coerce")` in `ingest.py`: strip the string, parse
an optionally signed decimal literal with optional exponent; any other input
(including `inf`/`nan` and digit-group underscores, which this model treats
as non-parsing) yields `none`. -/
def pyFloat (s : String) : Option PyNum :=
  match (pyStrip s).data with
  | '+' :: cs => pyFloatCore cs
  | '-' :: cs => (pyFloatCore cs).map fun n => ⟨-n.mantissa, n.exp10⟩
  | cs => pyFloatCore cs

/-- Batch context derived by the metadata readers of `ingest_folder`
(entity, normalized LEI, reference period, module, base currency). -/
structure BatchCtx where
  entity : String
  lei : String
  ref_period : String
  module : String
  currency : String
deriving DecidableEq

/-- One row of the `facts` table as inserted by `ingest_folder` (the SQLite
autoincrement id is not modelled; it carries no information). -/
structure FactRow where
  entity : String
  lei : String
  ref_period : String
  module : String
  currency : String
  template : String
  template_title : String
  row_code : String
  row_label : String
  col_code : String
  col_label : String
  col_parent : String
  col_header : String
  col_group : String
  col_sub : String
  file : String
  datapoint : String
  value : Option PyNum
  value_raw : String
  value_eur_m : Option PyNum
  unit : String
deriving DecidableEq

/-- The row built by `ingest_folder` for one matched fact: batch context,
schema metadata, numeric coercion (`value`), the verbatim raw string
(`value_raw`) and the millions-scaled value (`value_eur_m` = value / 1e6,
modelled as a decimal exponent shift). -/
def mergeOne (ctx : BatchCtx) (meta : MappingRec) (f : RawFact) : FactRow :=
  let numeric := pyFloat f.factValue
  { entity := ctx.entity, lei := ctx.lei, ref_period := ctx.ref_period,
    module := ctx.module, currency := ctx.currency,
    template := meta.template, template_title := meta.template_title,
    row_code := meta.row_code, row_label := meta.row_label,
    col_code := meta.col_code, col_label := meta.col_label,
    col_parent := meta.col_parent, col_header := meta.col_header,
    col_group := meta.col_group, col_sub := meta.col_sub,
    file := f.file, datapoint := f.datapoint,
    value := numeric, value_raw := f.factValue,
    value_eur_m := numeric.map fun n => ⟨n.mantissa, n.exp10 - 6⟩,
    unit := meta.unit }

/-- Embedding of the match-and-prepare loop of `ingest_folder` (step 4):
facts whose datapoint is found in `dp_lookup` contribute one row each;
facts with no definition are counted as unmatched and skipped
(`continue`) — they produce no row. -/
def mergeFacts (ctx : BatchCtx) (m : List (String × MappingRec))
    (facts : List RawFact) : List FactRow :=
  facts.filterMap fun f =>
    (lookupDp m f.datapoint).map fun meta => mergeOne ctx meta f

/-- The `WHERE lei = ? AND ref_period = ? AND module = ?` predicate of the
delete statement in `ingest_folder`. -/
def inPartition (ctx : BatchCtx) (r : FactRow) : Bool :=
  r.lei == ctx.lei && r.ref_period == ctx.ref_period && r.module == ctx.module

/-- Embedding of the write step of `ingest_folder` (step 5): delete every
previously stored fact of the batch's `(lei, ref_period, module)` partition,
then insert the freshly merged rows. -/
def replacePartition (db : List FactRow) (ctx : BatchCtx)
    (rows : List FactRow) : List FactRow :=
  db.filter (fun r => !(inPartition ctx r)) ++ rows

/-- Steps 4–5 of `ingest_folder` combined: merge the raw facts against the
datapoint lookup and replace the batch's partition in the facts table. -/
def ingestStep (db : List FactRow) (ctx : BatchCtx)
    (m : List (String × MappingRec)) (facts : List RawFact) : List FactRow :=
  replacePartition db ctx (mergeFacts ctx m facts)

/-- The per-column record built by the header loop of `_parse_mapping_sheet`. -/
structure ColInfo where
  col_code : String
  col_header : String
  col_group : String
  col_sub : String
  col_label : String
  col_parent : String
deriving DecidableEq

/-- Embedding of the column-header loop of `_parse_mapping_sheet`
(`for ci in range(3, max_ci)`), carrying the forward-fill state
`(last_header, last_group)`.  Dimension-property columns (group or header
starting with `"(q"`) contribute `none` and leave the carried state
untouched. -/
def colInfoAux (hR gR sR cR : List Cell) :
    String → String → List Nat → List (Option ColInfo)
  | _, _, [] => []
  | lastH, lastG, ci :: rest =>
    let h := cellAt hR ci
    let g := cellAt gR ci
    let s := cellAt sR ci
    let c := cellAt cR ci
    if strStarts g "(q" || strStarts h "(q" then
      none :: colInfoAux hR gR sR cR lastH lastG rest
    else
      let lastH2 := if h = "" then lastH else h
      let lastG2 := if g = "" then lastG else g
      some { col_code := c,
             col_header := lastH2,
             col_group := if g = "" ∧ s = "" then "" else lastG2,
             col_sub := s,
             col_label := if s ≠ "" then s else if g ≠ "" then g else h,
             col_parent :=
               if s ≠ "" then lastG2 else if g ≠ "" then lastH2 else "" }
        :: colInfoAux hR gR sR cR lastH2 lastG2 rest

/-- Upper column bound `max_ci` of the header loop. -/
def maxCi (hR gR sR cR : List Cell) : Nat :=
  max (max hR.length gR.length) (max sR.length cR.length)

/-- The `col_info` list of `_parse_mapping_sheet`: process columns 3 to
`max_ci - 1` with initial forward-fill state `("", "")`. -/
def buildColInfo (hR gR sR cR : List Cell) : List (Option ColInfo) :=
  colInfoAux hR gR sR cR "" "" (List.range' 3 (maxCi hR gR sR cR - 3))

/-- Strict 4-digit code test, models `re.match(r"^\d{4}$", v)`. -/
def isCode4 (s : String) : Bool :=
  s.data.length == 4 && s.data.all Char.isDigit

/-- Whether a sheet row qualifies as the column-code row: it has more than 3
cells and its 4th cell (column D) strips to a 4-digit code. -/
def rowHasCode (row : List Cell) : Bool :=
  decide (row.length > 3) && isCode4 (cellAt row 3)

/-- Embedding of the header-scan of `_parse_mapping_sheet`: scan row indices
`3 ≤ ri < min(len(rows), 12)` for the first row whose column-D cell is a
4-digit code; if none is found fall back to index 7 (or the last row of a
short sheet). -/
def findCodeRowIdx (rows : List (List Cell)) : Nat :=
  match (List.range' 3 (min rows.length 12 - 3)).find?
      (fun ri => rowHasCode (rows.getD ri [])) with
  | some ri => ri
  | none => if rows.length > 7 then 7 else rows.length - 1

/-- The first data row index of `_parse_mapping_sheet`: immediately after the
column-code row (`data_start = code_row_idx + 1`). -/
def dataStart (rows : List (List Cell)) : Nat := findCodeRowIdx rows + 1

/-- Concrete batch context used by the concrete-input theorems below. -/
def ctx0 : BatchCtx := ⟨"BankX", "LEI1", "2024Q4", "findis", "EUR"⟩

/-- A concrete datapoint definition for datapoint `dp123`. -/
def rec0 : MappingRec :=
  ⟨"dp123", "T1", "Title", "rl", "rc", "0010", "cl", "cp", "ch", "cg", "cs",
   "monetary"⟩

/-- A concrete raw fact whose value parses as a float. -/
def f0 : RawFact := ⟨"dp123", "45.6", "k_61.00"⟩

/-- A definition of datapoint `dp1` scoped to template `T1`. -/
def rec1 : MappingRec := ⟨"dp1", "T1", "", "", "", "", "", "", "", "", "", ""⟩

/-- A second definition of the same datapoint, scoped to template `T2`. -/
def rec2 : MappingRec := ⟨"dp1", "T2", "", "", "", "", "", "", "", "", "", ""⟩

/-- A raw fact for `dp1` originating from file `T2`. -/
def f2 : RawFact := ⟨"dp1", "1", "T2"⟩

/-- A fact row previously persisted in `ctx0`'s partition. -/
def row0 : FactRow := mergeOne ctx0 rec0 f0

/-- Group-label row populated only at the first data column. -/
def grpA : List Cell := [none, none, none, some "Gross", none, none]

/-- Column-code row for a three-column block. -/
def codA : List Cell :=
  [none, none, none, some "0010", some "0020", some "0030"]

/-- A sheet whose column-code row sits at index 5. -/
def rows0 : List (List Cell) :=
  [[], [], [], [some "Rows"], [none, some "x"],
   [none, none, none, some "0010", some "0020"], [], [], []]

/-- A sheet with no column-code row anywhere in the scan window. -/
def rows1 : List (List Cell) := List.replicate 9 []

/-- C1: the claim says every raw fact yields exactly one merged row, with
unmatched facts emitted carrying null schema fields, so that the merged
partition's row count equals the raw-fact count.  In `ingest_folder` an
unmatched fact hits `continue` and produces no row: with an empty datapoint
lookup, one raw fact yields zero merged rows, so the row counts differ. -/
theorem c1_unmatched_dropped :
    (mergeFacts ctx0 (buildDpLookup []) [f0]).length ≠ [f0].length := by
  decide

/-- C1 (amended): in `ingest_folder`'s merge step each matched raw fact emits
exactly one merged row and each unmatched fact is counted and skipped, so the
merged row count equals the matched count, and matched plus unmatched equals
the number of raw facts read. -/
theorem c1_merge_row_counts (ctx : BatchCtx) (m : List (String × MappingRec))
    (facts : List RawFact) :
    (mergeFacts ctx m facts).length
        = facts.countP (fun f => (lookupDp m f.datapoint).isSome) ∧
    (mergeFacts ctx m facts).length
        + facts.countP (fun f => (lookupDp m f.datapoint).isNone)
        = facts.length := by
  induction facts with
  | nil => exact ⟨rfl, rfl⟩
  | cons f fs ih =>
    cases h : lookupDp m f.datapoint <;>
      simp [mergeFacts, List.filterMap_cons, h, List.countP_cons] at ih ⊢ <;>
      omega

/-- C2: numeric coercion inside the merge never raises and never drops a
matched row.  Every matched fact contributes a merged row whose `value_raw`
is the original fact string verbatim and whose `value` is exactly the result
of the float coercion (in particular `none` whenever the string does not
parse). -/
theorem c2_numeric_coercion (ctx : BatchCtx) (m : List (String × MappingRec))
    (facts : List RawFact) (f : RawFact) (meta : MappingRec)
    (hf : f ∈ facts) (hm : lookupDp m f.datapoint = some meta) :
    ∃ r ∈ mergeFacts ctx m facts,
      r.value_raw = f.factValue ∧ r.value = pyFloat f.factValue := by
  refine ⟨mergeOne ctx meta f, ?_, rfl, rfl⟩
  simp only [mergeFacts]
  exact List.mem_filterMap.mpr ⟨f, hf, by rw [hm]; rfl⟩

/-- C2 witness: a matched fact with a parsing value, plus concrete coercion
outcomes for a parsing and a non-parsing string. -/
theorem c2_numeric_coercion_witness :
    (∃ r ∈ mergeFacts ctx0 (buildDpLookup [rec0]) [f0],
        r.value_raw = f0.factValue ∧ r.value = pyFloat f0.factValue) ∧
    pyFloat "45.6" = some ⟨456, -1⟩ ∧ pyFloat "N/A" = none :=
  ⟨c2_numeric_coercion ctx0 (buildDpLookup [rec0]) [f0] f0 rec0
      (List.mem_singleton.mpr rfl) (by decide),
   by decide, by decide⟩

/-- Every row produced by the merge loop belongs to the batch partition:
`mergeOne` writes the batch's `lei`, `ref_period` and `module` into it. -/
theorem mergeFacts_inPartition (ctx : BatchCtx) (m : List (String × MappingRec))
    (facts : List RawFact) :
    ∀ r ∈ mergeFacts ctx m facts, inPartition ctx r = true := by
  intro r hr
  simp only [mergeFacts] at hr
  rcases List.mem_filterMap.mp hr with ⟨f, _, hf⟩
  rcases Option.map_eq_some'.mp hf with ⟨meta, _, rfl⟩
  simp [mergeOne, inPartition]

/-- C4: ingestion is idempotent per partition.  Running the merge-and-write
step of `ingest_folder` twice with identical inputs yields the same facts
table as running it once, and the resulting partition for the batch's
`(lei, ref_period, module)` key consists of exactly the freshly merged rows —
the delete-then-insert leaves no stale duplicates. -/
theorem c4_ingest_idempotent (db : List FactRow) (ctx : BatchCtx)
    (m : List (String × MappingRec)) (facts : List RawFact) :
    ingestStep (ingestStep db ctx m facts) ctx m facts
        = ingestStep db ctx m facts ∧
    (ingestStep db ctx m facts).filter (fun r => inPartition ctx r)
        = mergeFacts ctx m facts := by
  have hpart := mergeFacts_inPartition ctx m facts
  constructor
  · simp only [ingestStep, replacePartition]
    rw [List.filter_append]
    have h1 : (mergeFacts ctx m facts).filter
        (fun r => !(inPartition ctx r)) = [] :=
      List.filter_eq_nil_iff.mpr (fun r hr => by simp [hpart r hr])
    rw [h1, List.filter_filter]
    simp [Bool.and_self]
  · simp only [ingestStep, replacePartition]
    rw [List.filter_append]
    have h1 : (db.filter (fun r => !(inPartition ctx r))).filter
        (fun r => inPartition ctx r) = [] := by
      rw [List.filter_filter]
      exact List.filter_eq_nil_iff.mpr (fun a _ => by
        cases h : inPartition ctx a <;> simp [h])
    have h2 : (mergeFacts ctx m facts).filter
        (fun r => inPartition ctx r) = mergeFacts ctx m facts :=
      List.filter_eq_self.mpr hpart
    rw [h1, h2, List.nil_append]

/-- C7: the claim says zero qualifying fact files abort the ingestion run
without touching previously persisted partitions.  In `ingest_p3dh.py`,
`_load_csv_data` returns an empty list instead of raising, and `ingest_folder`
then proceeds: the delete-then-insert replaces the previously persisted
partition with the empty set, so a prior row is lost rather than preserved. -/
theorem c7_zero_files_counterexample :
    load_csv_data [] = [] ∧
    ingestStep [row0] ctx0 (buildDpLookup [rec0]) (load_csv_data []) = [] ∧
    [row0] ≠ ([] : List FactRow) :=
  ⟨rfl, by decide, by decide⟩

/-- C7 (amended): only the single-entity reader `load_raw_data` treats zero
qualifying files as fatal (`FileNotFoundError`), and it distinguishes that
from a file that parses but is empty (which contributes an empty frame and
raises nothing); `_load_csv_data` in `ingest_p3dh.py` simply returns an empty
fact list and its run proceeds. -/
theorem c7_zero_files_amended (files : List (String × List CsvRow))
    (hne : files ≠ []) :
    (load_raw_data files).isOk = true ∧
    load_raw_data [] = Except.error "No k csv files found" ∧
    (∀ stem, load_raw_data [(stem, [])] = Except.ok []) ∧
    load_csv_data [] = [] := by
  refine ⟨?_, rfl, fun stem => rfl, rfl⟩
  cases files with
  | nil => exact absurd rfl hne
  | cons f fs => rfl

/-- C7 witness: a run with one non-empty fact file succeeds. -/
theorem c7_zero_files_witness :
    ((load_raw_data [("k_61.00", [⟨"dp1", "1"⟩])]).isOk = true) ∧
    load_raw_data [] = Except.error "No k csv files found" ∧
    (∀ stem, load_raw_data [(stem, [])] = Except.ok []) ∧
    load_csv_data [] = [] :=
  c7_zero_files_amended [("k_61.00", [⟨"dp1", "1"⟩])] (by decide)

/-- The dedup loop only ever keeps elements of its input, in order. -/
theorem dedupeAux_sublist (l : List MappingRec) :
    ∀ seen, List.Sublist (dedupeAux seen l) l := by
  induction l with
  | nil => intro seen; exact List.Sublist.refl _
  | cons r rs ih =>
    intro seen
    by_cases h : dKey r ∈ seen
    · simp only [dedupeAux]
      rw [if_pos h]
      exact (ih seen).cons r
    · simp only [dedupeAux]
      rw [if_neg h]
      exact (ih (dKey r :: seen)).cons₂ r

/-- The dedup loop emits pairwise-distinct keys, all outside `seen`. -/
theorem dedupeAux_nodup (l : List MappingRec) :
    ∀ seen, ((dedupeAux seen l).map dKey).Nodup ∧
      ∀ r ∈ dedupeAux seen l, dKey r ∉ seen := by
  induction l with
  | nil => intro seen; exact ⟨List.nodup_nil, by simp [dedupeAux]⟩
  | cons r rs ih =>
    intro seen
    by_cases h : dKey r ∈ seen
    · simp only [dedupeAux]
      rw [if_pos h]
      exact ih seen
    · simp only [dedupeAux]
      rw [if_neg h]
      obtain ⟨hnd, hni⟩ := ih (dKey r :: seen)
      refine ⟨?_, ?_⟩
      · simp only [List.map_cons, List.nodup_cons]
        refine ⟨?_, hnd⟩
        intro hmem
        rcases List.mem_map.mp hmem with ⟨x, hx, hkey⟩
        exact hni x hx (by simp [hkey])
      · intro x hx
        rcases List.mem_cons.mp hx with rfl | hx'
        · exact h
        · intro hxs
          exact hni x hx' (List.mem_cons_of_mem _ hxs)

/-- For every key not yet in `seen`, the first record the dedup loop keeps
for that key is the first record with that key in the input. -/
theorem dedupeAux_lookup (l : List MappingRec) :
    ∀ seen (k : String × String), k ∉ seen →
      (dedupeAux seen l).find? (fun r => decide (dKey r = k))
        = l.find? (fun r => decide (dKey r = k)) := by
  induction l with
  | nil => intro seen k _; rfl
  | cons r rs ih =>
    intro seen k hk
    by_cases h : dKey r ∈ seen
    · have hne : ¬(dKey r = k) := fun e => hk (e ▸ h)
      simp only [dedupeAux]
      rw [if_pos h, List.find?_cons_of_neg _ (by simp [hne]), ih seen k hk]
    · simp only [dedupeAux]
      rw [if_neg h]
      by_cases he : dKey r = k
      · rw [List.find?_cons_of_pos _ (by simp [he]),
          List.find?_cons_of_pos _ (by simp [he])]
      · rw [List.find?_cons_of_neg _ (by simp [he]),
          List.find?_cons_of_neg _ (by simp [he])]
        refine ih _ k ?_
        intro hmem
        rcases List.mem_cons.mp hmem with e | hks
        · exact he e.symm
        · exact hk hks

/-- C3: `build_mapping` deduplicates by `(datapoint, template)` with
first-occurrence-wins semantics: the result is a subsequence of the parsed
records, its keys are pairwise distinct, and for every key the surviving
record is exactly the first input record carrying that key (so every key
present in the input survives, and later duplicates are dropped). -/
theorem c3_dedup_first_wins (l : List MappingRec) :
    List.Sublist (build_mapping l) l ∧
    ((build_mapping l).map dKey).Nodup ∧
    ∀ k : String × String,
      (build_mapping l).find? (fun r => decide (dKey r = k))
        = l.find? (fun r => decide (dKey r = k)) :=
  ⟨dedupeAux_sublist l [], (dedupeAux_nodup l []).1,
   fun k => dedupeAux_lookup l [] k (by simp)⟩

/-- Association-list lookup distributes over append, first list first. -/
theorem lookupDp_append (m1 m2 : List (String × MappingRec)) (dp : String) :
    lookupDp (m1 ++ m2) dp =
      match lookupDp m1 dp with
      | some v => some v
      | none => lookupDp m2 dp := by
  simp only [lookupDp, List.find?_append]
  cases h : List.find? (fun p => p.1 == dp) m1 <;> simp [Option.or, h]

/-- Invariant of the `setdefault` fold: looking up a datapoint in the built
dict returns the binding already present in the accumulator if any, else the
first record with that datapoint among the remaining records. -/
theorem dpLookup_foldl (records : List MappingRec) :
    ∀ (m : List (String × MappingRec)) (dp : String),
      lookupDp (records.foldl dpInsert m) dp =
        match lookupDp m dp with
        | some v => some v
        | none => records.find? fun r => r.datapoint == dp := by
  induction records with
  | nil => intro m dp; cases h : lookupDp m dp <;> simp [h]
  | cons r rs ih =>
    intro m dp
    rw [List.foldl_cons, ih]
    by_cases hdp : r.datapoint = dp
    · subst hdp
      by_cases hm : (m.find? fun p => p.1 == r.datapoint).isSome
      · obtain ⟨pv, hpv⟩ := Option.isSome_iff_exists.mp hm
        have hsome : lookupDp m r.datapoint = some pv.2 := by
          simp [lookupDp, hpv]
        simp only [dpInsert, if_pos hm, hsome]
      · have hnone : lookupDp m r.datapoint = none := by
          cases h : m.find? (fun p => p.1 == r.datapoint) with
          | none => simp [lookupDp, h]
          | some v => exact absurd (by simp [h]) hm
        simp only [dpInsert, if_neg hm]
        rw [lookupDp_append, hnone]
        have hone : lookupDp [(r.datapoint, r)] r.datapoint = some r := by
          simp [lookupDp, List.find?]
        rw [hone, List.find?_cons_of_pos _ (by simp)]
    · have h1 : lookupDp (dpInsert m r) dp = lookupDp m dp := by
        by_cases hm : (m.find? fun p => p.1 == r.datapoint).isSome
        · simp only [dpInsert, if_pos hm]
        · simp only [dpInsert, if_neg hm]
          rw [lookupDp_append]
          cases h : lookupDp m dp with
          | some v => rfl
          | none =>
            have hb : (r.datapoint == dp) = false :=
              beq_eq_false_iff_ne.mpr hdp
            simp [lookupDp, List.find?, hb]
      rw [h1]
      cases h : lookupDp m dp with
      | some v => rfl
      | none =>
        rw [List.find?_cons_of_neg _ (by simp [hdp])]

/-- C8 (amended): the datapoint lookup of `ingest_folder` is built with
`setdefault`, so a fact's datapoint always resolves to the first definition
for that datapoint id in mapping-parse order — the fact's `source_file` plays
no role in the choice — and on a singleton fact list the merge emits exactly
that definition's row (or nothing when the id is absent). -/
theorem c8_first_definition_wins (records : List MappingRec) (dp : String)
    (ctx : BatchCtx) (f : RawFact) :
    lookupDp (buildDpLookup records) dp
        = records.find? (fun r => r.datapoint == dp) ∧
    mergeFacts ctx (buildDpLookup records) [f] =
      (match records.find? (fun r => r.datapoint == f.datapoint) with
       | none => []
       | some meta => [mergeOne ctx meta f]) := by
  have hmain : ∀ d, lookupDp (buildDpLookup records) d
      = records.find? (fun r => r.datapoint == d) := by
    intro d
    have h := dpLookup_foldl records [] d
    have hempty : lookupDp [] d = none := rfl
    rw [hempty] at h
    exact h
  refine ⟨hmain dp, ?_⟩
  simp only [mergeFacts, List.filterMap_cons, List.filterMap_nil,
    hmain f.datapoint]
  cases h : records.find? (fun r => r.datapoint == f.datapoint) <;> simp [h]

/-- C8: the claim says the merge prefers the definition whose template
matches the fact's source file.  With two definitions of `dp1` (templates
`T1` then `T2`) and a fact originating from file `T2`, the merge attaches
the `T1` definition: the first-parsed definition wins regardless of the
fact's source file. -/
theorem c8_template_preference_counterexample :
    (mergeFacts ctx0 (buildDpLookup [rec1, rec2]) [f2]).map
      (fun r => FactRow.template r) = ["T1"] ∧
    f2.file = "T2" ∧ ("T1" : String) ≠ "T2" :=
  ⟨by decide, rfl, by decide⟩

/-- C9: the TOC parser keeps a `(code, title)` entry only for rows whose code
and title cells are both truthy (non-empty), and when several kept rows share
a code the dict assignment lets the last such row's title win: the lookup of
any code equals the title of the last qualifying row carrying that code. -/
theorem c9_toc_last_wins (rows : List (List Cell)) (k : String) :
    parse_toc rows k =
      (rows.reverse.find? fun row =>
          (truthy (row.getD 1 none) && truthy (row.getD 2 none)) &&
            (cellStr (row.getD 1 none) == k)).map
        fun row => cellStr (row.getD 2 none) := by
  induction rows using List.reverseRecOn with
  | nil => rfl
  | append_singleton l a ih =>
    have hfold : parse_toc (l ++ [a]) = tocStep (parse_toc l) a := by
      simp [parse_toc, List.foldl_append]
    rw [hfold, List.reverse_append, List.reverse_singleton,
      List.singleton_append]
    by_cases hq : (truthy (a.getD 1 none) && truthy (a.getD 2 none)) = true
    · by_cases hk : k = cellStr (a.getD 1 none)
      · have hc : (cellStr (a.getD 1 none) == k) = true :=
          beq_iff_eq.mpr hk.symm
        have hpred : ((truthy (a.getD 1 none) && truthy (a.getD 2 none)) &&
            (cellStr (a.getD 1 none) == k)) = true := by
          rw [hq, hc]; rfl
        have hfind : List.find? (fun row =>
              (truthy (row.getD 1 none) && truthy (row.getD 2 none)) &&
                (cellStr (row.getD 1 none) == k)) (a :: l.reverse)
            = some a := List.find?_cons_of_pos _ hpred
        rw [hfind]
        simp only [tocStep, Option.map_some']
        rw [if_pos hq, if_pos hk]
      · have hc : (cellStr (a.getD 1 none) == k) = false :=
          beq_eq_false_iff_ne.mpr (fun e => hk e.symm)
        have hpred : ¬(((truthy (a.getD 1 none) && truthy (a.getD 2 none)) &&
            (cellStr (a.getD 1 none) == k)) = true) := by
          rw [hc, Bool.and_false]
          exact Bool.false_ne_true
        have hfind : List.find? (fun row =>
              (truthy (row.getD 1 none) && truthy (row.getD 2 none)) &&
                (cellStr (row.getD 1 none) == k)) (a :: l.reverse)
            = List.find? (fun row =>
              (truthy (row.getD 1 none) && truthy (row.getD 2 none)) &&
                (cellStr (row.getD 1 none) == k)) l.reverse :=
          List.find?_cons_of_neg _ hpred
        rw [hfind]
        simp only [tocStep]
        rw [if_pos hq, if_neg hk]
        exact ih
    · have hab : (truthy (a.getD 1 none) && truthy (a.getD 2 none)) = false :=
        Bool.eq_false_iff.mpr hq
      have hpred : ¬(((truthy (a.getD 1 none) && truthy (a.getD 2 none)) &&
          (cellStr (a.getD 1 none) == k)) = true) := by
        rw [hab, Bool.false_and]
        exact Bool.false_ne_true
      have hfind : List.find? (fun row =>
            (truthy (row.getD 1 none) && truthy (row.getD 2 none)) &&
              (cellStr (row.getD 1 none) == k)) (a :: l.reverse)
          = List.find? (fun row =>
            (truthy (row.getD 1 none) && truthy (row.getD 2 none)) &&
              (cellStr (row.getD 1 none) == k)) l.reverse :=
        List.find?_cons_of_neg _ hpred
      rw [hfind]
      simp only [tocStep]
      rw [if_neg hq]
      exact ih

/-- If no index in the scanned range satisfies the predicate, the scan finds
nothing. -/
theorem find_in_range_none (s k : Nat) (p : Nat → Bool)
    (h : ((List.range' s k).all fun j => !p j) = true) :
    (List.range' s k).find? p = none := by
  rw [List.find?_eq_none]
  intro x hx
  have hb := List.all_eq_true.mp h x hx
  simp only [Bool.not_eq_true'] at hb
  simp [hb]

/-- The scan over a contiguous index range returns the first index that
satisfies the predicate. -/
theorem find_in_range_first (k : Nat) : ∀ (s i : Nat) (p : Nat → Bool),
    s ≤ i → i < s + k → p i = true →
    ((List.range' s (i - s)).all fun j => !p j) = true →
    (List.range' s k).find? p = some i := by
  induction k with
  | zero => intro s i p h1 h2 _ _; omega
  | succ n ih =>
    intro s i p h1 h2 h3 h4
    rw [List.range'_succ]
    rcases Nat.eq_or_lt_of_le h1 with rfl | hlt
    · rw [List.find?_cons_of_pos _ h3]
    · have hmem : s ∈ List.range' s (i - s) := by
        rw [List.mem_range'_1]
        omega
      have hps := List.all_eq_true.mp h4 s hmem
      simp only [Bool.not_eq_true'] at hps
      rw [List.find?_cons_of_neg _ (by simp [hps])]
      have hrw : List.range' s (i - s)
          = s :: List.range' (s + 1) (i - (s + 1)) := by
        have he : i - s = (i - (s + 1)) + 1 := by omega
        rw [he, List.range'_succ]
      rw [hrw] at h4
      simp only [List.all_cons, Bool.and_eq_true] at h4
      exact ih (s + 1) i p (by omega) (by omega) h3 h4.2

/-- C6: the header block of `_parse_mapping_sheet` is located structurally:
the scan window is row indices 3 up to `min(len(rows), 12)`, the column-code
row is the first row in that window whose column-D cell strips to a strict
4-digit code, and data rows begin immediately after it; when no row of the
window qualifies, the configured default offset 7 (clamped to the last row of
a short sheet) is used as fallback. -/
theorem c6_header_scan (rows : List (List Cell)) :
    (∀ ri, 3 ≤ ri → ri < min rows.length 12 →
      rowHasCode (rows.getD ri []) = true →
      ((List.range' 3 (ri - 3)).all fun rj => !rowHasCode (rows.getD rj []))
          = true →
      findCodeRowIdx rows = ri ∧ dataStart rows = ri + 1) ∧
    (((List.range' 3 (min rows.length 12 - 3)).all
        fun rj => !rowHasCode (rows.getD rj [])) = true →
      findCodeRowIdx rows = (if rows.length > 7 then 7 else rows.length - 1) ∧
      dataStart rows
          = (if rows.length > 7 then 7 else rows.length - 1) + 1) := by
  constructor
  · intro ri h1 h2 h3 h4
    have hf : (List.range' 3 (min rows.length 12 - 3)).find?
        (fun rj => rowHasCode (rows.getD rj [])) = some ri :=
      find_in_range_first _ 3 ri _ h1 (by omega) h3 h4
    constructor
    · simp only [findCodeRowIdx]
      rw [hf]
    · simp only [dataStart, findCodeRowIdx]
      rw [hf]
  · intro h
    have hf := find_in_range_none 3 (min rows.length 12 - 3) _ h
    constructor
    · simp only [findCodeRowIdx]
      rw [hf]
    · simp only [dataStart, findCodeRowIdx]
      rw [hf]

/-- C6 witness: a sheet whose code row sits at index 5 (data rows start at 6)
and a sheet with no code row, which falls back to index 7. -/
theorem c6_header_scan_witness :
    findCodeRowIdx rows0 = 5 ∧ dataStart rows0 = 6 ∧
    findCodeRowIdx rows1 = 7 := by
  have h1 := (c6_header_scan rows0).1 5 (by decide) (by decide) (by decide)
    (by decide)
  have h2 := (c6_header_scan rows1).2 (by decide)
  exact ⟨h1.1, h1.2, h2.1.trans (by decide)⟩

/-- The empty string does not start a dimension-property column marker. -/
theorem empty_not_qcol : strStarts "" "(q" = false := rfl

/-- C5: the claim says that when the group-label cell is populated only in
the first of three adjacent data columns, all three columns resolve to the
same `col_group`.  In `_parse_mapping_sheet`, a column whose own group and
sub cells are both blank gets `col_group = ""` (the carried `last_group` is
only exposed when `g or s` is truthy): with group row
`[Gross, blank, blank]` and no sub row, the three columns resolve to
`["Gross", "", ""]`, so the second column differs from the first. -/
theorem c5_forward_fill_counterexample :
    (buildColInfo [] grpA [] codA).map (Option.map ColInfo.col_group)
      = [some "Gross", some "", some ""] ∧ ("" : String) ≠ "Gross" :=
  ⟨by decide, by decide⟩

/-- C5 (amended): the carried group label does propagate forward across blank
group cells, but it is exposed as `col_group` only for columns whose own
group or sub cell is non-empty.  In a three-column block whose group cell is
populated only in the first column: with non-empty sub labels all three
columns resolve to the first column's group label; a later non-empty group
cell resets the carried value; and columns whose group and sub cells are both
blank resolve `col_group` to the empty string. -/
theorem c5_forward_fill_amended (g1 g3 s1 s2 s3 : String)
    (hg1s : pyStrip g1 = g1) (hg3s : pyStrip g3 = g3)
    (hs1s : pyStrip s1 = s1) (hs2s : pyStrip s2 = s2) (hs3s : pyStrip s3 = s3)
    (hg1n : g1 ≠ "") (hg3n : g3 ≠ "")
    (hs1n : s1 ≠ "") (hs2n : s2 ≠ "") (hs3n : s3 ≠ "")
    (hg1q : strStarts g1 "(q" = false) (hg3q : strStarts g3 "(q" = false) :
    (buildColInfo [] [none, none, none, some g1, none, none]
        [none, none, none, some s1, some s2, some s3] codA).map
      (Option.map ColInfo.col_group) = [some g1, some g1, some g1] ∧
    (buildColInfo [] [none, none, none, some g1, none, some g3]
        [none, none, none, some s1, some s2, some s3] codA).map
      (Option.map ColInfo.col_group) = [some g1, some g1, some g3] ∧
    (buildColInfo [] [none, none, none, some g1, none, none] [] codA).map
      (Option.map ColInfo.col_group) = [some g1, some "", some ""] := by
  refine ⟨?_, ?_, ?_⟩ <;>
    simp [buildColInfo, maxCi, colInfoAux, cellAt, cellStr, List.getD,
      List.range', codA, empty_not_qcol, hg1s, hg3s, hs1s, hs2s, hs3s,
      hg1n, hg3n, hs1n, hs2n, hs3n, hg1q, hg3q]

/-- C5 witness: the amended forward-fill behaviour at concrete labels. -/
theorem c5_forward_fill_witness :
    (buildColInfo [] [none, none, none, some "G", none, none]
        [none, none, none, some "a", some "b", some "c"] codA).map
      (Option.map ColInfo.col_group) = [some "G", some "G", some "G"] ∧
    (buildColInfo [] [none, none, none, some "G", none, some "N"]
        [none, none, none, some "a", some "b", some "c"] codA).map
      (Option.map ColInfo.col_group) = [some "G", some "G", some "N"] ∧
    (buildColInfo [] [none, none, none, some "G", none, none] [] codA).map
      (Option.map ColInfo.col_group) = [some "G", some "", some ""] :=
  c5_forward_fill_amended "G" "N" "a" "b" "c" (by decide) (by decide)
    (by decide) (by decide) (by decide) (by decide) (by decide) (by decide)
    (by decide) (by decide) (by decide) (by decide)

/-- The leading-digit scan agrees with `takeWhile`. -/
theorem leadingDigits_eq_takeWhile (cs : List Char) :
    leadingDigits cs = cs.takeWhile Char.isDigit := by
  induction cs with
  | nil => rfl
  | cons c cs ih =>
    by_cases h : c.isDigit <;>
      simp [leadingDigits, List.takeWhile_cons, h, ih]

/-- A string begins with a digit exactly when its leading-digit run is
non-empty. -/
theorem beginsWithDigit_iff (s : String) :
    beginsWithDigit s = !(leadingDigits s.data).isEmpty := by
  obtain ⟨cs⟩ := s
  cases cs with
  | nil => rfl
  | cons c cs' =>
    by_cases h : c.isDigit <;> simp [beginsWithDigit, leadingDigits, h]

/-- The dict-order unit lookup of `_parse_dp_cell` as an explicit precedence
chain over the four markers. -/
theorem unit_chain (t : String) :
    ((UNIT_MAP.find? fun p => containsSub t p.1).map Prod.snd).getD ""
      = (if containsSub t "€£$" = true then "monetary"
         else if containsSub t "%" = true then "percentage"
         else if containsSub t "#" = true then "count"
         else if containsSub t "yyyy-mm-dd" = true then "date"
         else "") := by
  simp only [UNIT_MAP]
  cases h1 : containsSub t "€£$" <;> cases h2 : containsSub t "%" <;>
    cases h3 : containsSub t "#" <;> cases h4 : containsSub t "yyyy-mm-dd" <;>
      simp [List.find?, h1, h2, h3, h4]

/-- C10: the datapoint-cell parser is total and returns a datapoint id
exactly when the stripped cell text begins with a decimal digit; the id is
`"dp"` followed by the text's leading digits; the unit, when a datapoint is
returned, is the first marker match in the fixed precedence monetary,
percentage, count, date (empty when no marker occurs); any other cell yields
`(none, "")` regardless of content. -/
theorem c10_dp_cell_total (val : Cell) :
    ((parse_dp_cell val).1.isSome = true
        ↔ beginsWithDigit (cellStr val) = true) ∧
    (beginsWithDigit (cellStr val) = false → parse_dp_cell val = (none, "")) ∧
    (beginsWithDigit (cellStr val) = true →
      (parse_dp_cell val).1
          = some ("dp" ++ String.mk
              ((cellStr val).data.takeWhile Char.isDigit)) ∧
      (parse_dp_cell val).2 =
        (if containsSub (cellStr val) "€£$" = true then "monetary"
         else if containsSub (cellStr val) "%" = true then "percentage"
         else if containsSub (cellStr val) "#" = true then "count"
         else if containsSub (cellStr val) "yyyy-mm-dd" = true then "date"
         else "")) := by
  cases val with
  | none =>
    refine ⟨by simp [parse_dp_cell, cellStr, beginsWithDigit], fun _ => rfl,
      fun h => absurd h (by simp [cellStr, beginsWithDigit])⟩
  | some v =>
    have hcell : cellStr (some v) = pyStrip v := rfl
    by_cases h : (leadingDigits (pyStrip v).data).isEmpty = true
    · have hb : beginsWithDigit (pyStrip v) = false := by
        rw [beginsWithDigit_iff, h]; rfl
      have hp : parse_dp_cell (some v) = (none, "") := by
        simp [parse_dp_cell, h]
      refine ⟨?_, fun _ => hp, fun hcon => absurd hcon (by simp [hcell, hb])⟩
      rw [hcell, hb, hp]
      simp
    · have hb : beginsWithDigit (pyStrip v) = true := by
        rw [beginsWithDigit_iff, Bool.eq_false_iff.mpr h]; rfl
      have hp : parse_dp_cell (some v)
          = (some ("dp" ++ String.mk (leadingDigits (pyStrip v).data)),
             ((UNIT_MAP.find? fun p =>
                 containsSub (pyStrip v) p.1).map Prod.snd).getD "") := by
        simp [parse_dp_cell, h]
      refine ⟨by rw [hcell, hb, hp]; simp, ?_, fun _ => ⟨?_, ?_⟩⟩
      · intro hcon
        rw [hcell, hb] at hcon
        exact absurd hcon (by simp)
      · rw [hp, hcell, leadingDigits_eq_takeWhile]
      · rw [hp, hcell]
        exact unit_chain (pyStrip v)

/-- C10 witness: a digit-led cell with two unit markers resolves to the
higher-precedence unit, and a non-digit-led cell yields no datapoint and an
empty unit despite containing a marker. -/
theorem c10_dp_cell_witness :
    parse_dp_cell (some "12kg%#") = (some "dp12", "percentage") ∧
    parse_dp_cell (some "n/a 5 %") = (none, "") := by
  have h1 := (c10_dp_cell_total (some "12kg%#")).2.2 (by decide)
  have h2 := (c10_dp_cell_total (some "n/a 5 %")).2.1 (by decide)
  refine ⟨?_, h2⟩
  have hpair : parse_dp_cell (some "12kg%#")
      = ((parse_dp_cell (some "12kg%#")).1,
         (parse_dp_cell (some "12kg%#")).2) := rfl
  rw [hpair, h1.1, h1.2]
  decide

end P3dh
